import Mathlib

/-!
Verification of the OCPP 1.6 charging-session engine of
`e-mobility-charging-stations-simulator`, shallowly embedded from
`src/charging-station/ocpp/1.6/OCPP16ServiceUtils.ts`.

Instants (JS `Date`) are modelled as milliseconds since the epoch (`Int`).
The date-fns helpers used by the source are modelled with their documented
semantics: `addSeconds`, `differenceInSeconds` (default rounding method
`trunc`, i.e. toward zero), `isBefore`, `isAfter`, `areIntervalsOverlapping`
(default non-inclusive bounds), `isWithinInterval` (inclusive bounds).
-/

namespace OCPP16

/-- date-fns `Interval`: a pair of instants (milliseconds). -/
structure Interval where
  start : Int
  «end» : Int
deriving DecidableEq, Repr

def addSeconds (d : Int) (n : Int) : Int := d + n * 1000

/-- date-fns `differenceInSeconds` with the default `trunc` rounding method:
truncation toward zero, hence `Int.div`. -/
def differenceInSeconds (a b : Int) : Int := Int.tdiv (a - b) 1000

def isBefore (a b : Int) : Bool := a < b

def isAfter (a b : Int) : Bool := b < a

/-- date-fns `areIntervalsOverlapping` with default (non-inclusive) bounds:
each interval's bounds are sorted, then strict overlap is required. -/
def areIntervalsOverlapping (l r : Interval) : Bool :=
  min l.start l.«end» < max r.start r.«end» &&
    min r.start r.«end» < max l.start l.«end»

/-- date-fns `isWithinInterval`: inclusive on both bounds. -/
def isWithinInterval (d : Int) (i : Interval) : Bool :=
  i.start ≤ d && d ≤ i.«end»

/-- `OCPP16ChargingSchedulePeriod` (types/ocpp/1.6/ChargingProfile.ts):
`startPeriod` is a seconds offset from the schedule start; `limit` and
`numberPhases` are carried opaquely (never computed with) by the code
under verification. -/
structure OCPP16ChargingSchedulePeriod where
  startPeriod : Int
  limit : Int
  numberPhases : Option Int := none
deriving DecidableEq, Repr

inductive OCPP16ChargingRateUnitType where
  | W
  | A
deriving DecidableEq, Repr

/-- `OCPP16ChargingSchedule`. In the source `startSchedule` and `duration`
are optional; the composition code dereferences them with `!`, and every
claim requires them defined, so they are modelled as required fields. -/
structure OCPP16ChargingSchedule where
  startSchedule : Int
  duration : Int
  chargingRateUnit : OCPP16ChargingRateUnitType
  chargingSchedulePeriod : List OCPP16ChargingSchedulePeriod
deriving DecidableEq, Repr

/-- Ordering used by every `.sort((a, b) => a.startPeriod - b.startPeriod)`
in the source. -/
def periodLE (a b : OCPP16ChargingSchedulePeriod) : Prop :=
  a.startPeriod ≤ b.startPeriod

instance : DecidableRel periodLE := fun a b =>
  inferInstanceAs (Decidable (a.startPeriod ≤ b.startPeriod))

instance : IsTotal OCPP16ChargingSchedulePeriod periodLE :=
  ⟨fun a b => Int.le_total a.startPeriod b.startPeriod⟩

instance : IsTrans OCPP16ChargingSchedulePeriod periodLE :=
  ⟨fun _ _ _ hab hbc => le_trans hab hbc⟩

/-- JS `Array.prototype.sort` with the numeric comparator is a stable sort;
`List.insertionSort` with a non-strict `≤` is also stable (an element is
inserted before the elements with an equal key, all of which originally
stood to its right). -/
def sortPeriods (ps : List OCPP16ChargingSchedulePeriod) :
    List OCPP16ChargingSchedulePeriod :=
  List.insertionSort periodLE ps

/-- The filter predicate of the `scheduleInterval.start < compositeInterval.start`
clipping branch of `composeChargingSchedule` (lines 1279-1305): keep a period
whose instant lies inside the composite interval, or whose own instant lies
outside while its immediate successor's instant lies inside. -/
def keepsClippedPeriod (schedStart : Int) (compositeInterval : Interval)
    (p : OCPP16ChargingSchedulePeriod)
    (rest : List OCPP16ChargingSchedulePeriod) : Bool :=
  isWithinInterval (addSeconds schedStart p.startPeriod) compositeInterval ||
    (match rest with
     | [] => false
     | q :: _ =>
       !isWithinInterval (addSeconds schedStart p.startPeriod) compositeInterval &&
         isWithinInterval (addSeconds schedStart q.startPeriod) compositeInterval)

/-- `.filter((schedulePeriod, index) => ...)` of the clip-start branch:
the successor consulted at `index + 1` is the head of the remaining list. -/
def clipStartSurvivors (schedStart : Int) (compositeInterval : Interval) :
    List OCPP16ChargingSchedulePeriod → List OCPP16ChargingSchedulePeriod
  | [] => []
  | p :: rest =>
    (if keepsClippedPeriod schedStart compositeInterval p rest then [p] else []) ++
      clipStartSurvivors schedStart compositeInterval rest

/-- `.map((schedulePeriod, index) => { if (index === 0 && schedulePeriod.startPeriod !== 0)
{ schedulePeriod.startPeriod = 0 } ... })`: the first element of the list has its
`startPeriod` overwritten to 0 when non-zero. -/
def zeroFirst : List OCPP16ChargingSchedulePeriod →
    List OCPP16ChargingSchedulePeriod
  | [] => []
  | p :: rest =>
    (if p.startPeriod ≠ 0 then { p with startPeriod := 0 } else p) :: rest

/-- `OCPP16ServiceUtils.composeChargingSchedule` (lines 1260-1331): project one
schedule onto the composite interval; `none` models the source returning
`undefined` when the intervals do not overlap. -/
def composeChargingSchedule (chargingSchedule : OCPP16ChargingSchedule)
    (compositeInterval : Interval) : Option OCPP16ChargingSchedule :=
  let chargingScheduleInterval : Interval :=
    { start := chargingSchedule.startSchedule
      «end» := addSeconds chargingSchedule.startSchedule chargingSchedule.duration }
  if areIntervalsOverlapping chargingScheduleInterval compositeInterval then
    -- the source sorts `chargingSchedule.chargingSchedulePeriod` in place here
    let sorted := sortPeriods chargingSchedule.chargingSchedulePeriod
    if isBefore chargingScheduleInterval.start compositeInterval.start then
      some { chargingSchedule with
        startSchedule := compositeInterval.start
        duration :=
          differenceInSeconds chargingScheduleInterval.«end» compositeInterval.start
        chargingSchedulePeriod :=
          zeroFirst
            (clipStartSurvivors chargingScheduleInterval.start compositeInterval sorted) }
    else if isAfter chargingScheduleInterval.«end» compositeInterval.«end» then
      some { chargingSchedule with
        duration :=
          differenceInSeconds compositeInterval.«end» chargingScheduleInterval.start
        chargingSchedulePeriod :=
          sorted.filter fun p =>
            isWithinInterval (addSeconds chargingScheduleInterval.start p.startPeriod)
              compositeInterval }
    else
      some { chargingSchedule with chargingSchedulePeriod := sorted }
  else
    none

/-- The filter of lines 1141-1199 over the projected lower schedule's periods
(`compositeChargingScheduleLower.chargingSchedulePeriod`): a period is dropped
when (`higherFirst` and its instant falls inside `[lower.start, higher.end]`),
or (`higherFirst`, its own instant falls outside while its immediate
successor's instant falls inside), or (not `higherFirst` and its instant falls
inside `[higher.start, lower.end]`). Instants are measured from the projected
lower schedule's start. -/
def overlapSurvivors (higherFirst : Bool) (higherInterval lowerInterval : Interval) :
    List OCPP16ChargingSchedulePeriod → List OCPP16ChargingSchedulePeriod
  | [] => []
  | p :: rest =>
    let dropped :=
      (higherFirst &&
        isWithinInterval (addSeconds lowerInterval.start p.startPeriod)
          { start := lowerInterval.start, «end» := higherInterval.«end» }) ||
      (higherFirst &&
        (match rest with
         | [] => false
         | q :: _ =>
           !isWithinInterval (addSeconds lowerInterval.start p.startPeriod)
               { start := lowerInterval.start, «end» := higherInterval.«end» } &&
             isWithinInterval (addSeconds lowerInterval.start q.startPeriod)
               { start := lowerInterval.start, «end» := higherInterval.«end» })) ||
      (!higherFirst &&
        isWithinInterval (addSeconds lowerInterval.start p.startPeriod)
          { start := higherInterval.start, «end» := lowerInterval.«end» })
    (if dropped then [] else [p]) ++ overlapSurvivors higherFirst higherInterval lowerInterval rest

/-- Tail of `composeChargingSchedules` when both projections are defined
(lines 1045-1216). The record spread `{...lower, ...higher, ...}` makes every
unoverridden field (here `chargingRateUnit`) come from the projected higher
schedule. -/
def combineComposedSchedules
    (compositeChargingScheduleHigher compositeChargingScheduleLower :
      OCPP16ChargingSchedule) : OCPP16ChargingSchedule :=
  let higherInterval : Interval :=
    { start := compositeChargingScheduleHigher.startSchedule
      «end» := addSeconds compositeChargingScheduleHigher.startSchedule
        compositeChargingScheduleHigher.duration }
  let lowerInterval : Interval :=
    { start := compositeChargingScheduleLower.startSchedule
      «end» := addSeconds compositeChargingScheduleLower.startSchedule
        compositeChargingScheduleLower.duration }
  let higherFirst := isBefore higherInterval.start lowerInterval.start
  if !areIntervalsOverlapping higherInterval lowerInterval then
    { compositeChargingScheduleHigher with
      startSchedule := if higherFirst then higherInterval.start else lowerInterval.start
      duration :=
        if higherFirst then differenceInSeconds lowerInterval.«end» higherInterval.start
        else differenceInSeconds higherInterval.«end» lowerInterval.start
      chargingSchedulePeriod :=
        sortPeriods
          ((compositeChargingScheduleHigher.chargingSchedulePeriod.map fun sp =>
              { sp with
                startPeriod :=
                  if higherFirst then 0
                  else sp.startPeriod +
                    differenceInSeconds higherInterval.start lowerInterval.start }) ++
            (compositeChargingScheduleLower.chargingSchedulePeriod.map fun sp =>
              { sp with
                startPeriod :=
                  if higherFirst then
                    sp.startPeriod +
                      differenceInSeconds lowerInterval.start higherInterval.start
                  else 0 })) }
  else
    { compositeChargingScheduleHigher with
      startSchedule := if higherFirst then higherInterval.start else lowerInterval.start
      duration :=
        if higherFirst then differenceInSeconds lowerInterval.«end» higherInterval.start
        else differenceInSeconds higherInterval.«end» lowerInterval.start
      chargingSchedulePeriod :=
        sortPeriods
          ((compositeChargingScheduleHigher.chargingSchedulePeriod.map fun sp =>
              { sp with
                startPeriod :=
                  if higherFirst then 0
                  else sp.startPeriod +
                    differenceInSeconds higherInterval.start lowerInterval.start }) ++
            ((zeroFirst
                (overlapSurvivors higherFirst higherInterval lowerInterval
                  compositeChargingScheduleLower.chargingSchedulePeriod)).map fun sp =>
              { sp with
                startPeriod :=
                  if higherFirst then
                    sp.startPeriod +
                      differenceInSeconds lowerInterval.start higherInterval.start
                  else 0 })) }

/-- `OCPP16ServiceUtils.composeChargingSchedules` (lines 1027-1217).
The inner `Option` mirrors the source's `undefined` result; the outer `none`
models the `TypeError` the source raises when both schedules are defined but a
projection onto the composite interval is `undefined` (it then dereferences
`compositeChargingScheduleHigher!.startSchedule!` on `undefined`). -/
def composeChargingSchedules
    (chargingScheduleHigher chargingScheduleLower : Option OCPP16ChargingSchedule)
    (compositeInterval : Interval) : Option (Option OCPP16ChargingSchedule) :=
  match chargingScheduleHigher, chargingScheduleLower with
  | none, none => some none
  | some higher, none => some (composeChargingSchedule higher compositeInterval)
  | none, some lower => some (composeChargingSchedule lower compositeInterval)
  | some higher, some lower =>
    match composeChargingSchedule higher compositeInterval,
        composeChargingSchedule lower compositeInterval with
    | some compositeHigher, some compositeLower =>
      some (some (combineComposedSchedules compositeHigher compositeLower))
    | _, _ => none

/-! ### Effect-tracking model of the composition functions

The source mutates its schedule arguments: `composeChargingSchedule` sorts
`chargingSchedule.chargingSchedulePeriod` in place (line 1269) and, in the
clip-start branch, overwrites the first kept period object's `startPeriod`
with 0 (lines 1306-1309) — that object also lives in the caller's array.
The `Full` variants below return the value result together with the final
state of the argument schedule. -/

/-- Walk the (sorted) period list and zero the `startPeriod` of the first
element the clip-start filter keeps: this is the in-place write observed by
the owner of the array after `composeChargingSchedule` returns. -/
def zeroFirstKept (schedStart : Int) (compositeInterval : Interval) :
    List OCPP16ChargingSchedulePeriod → List OCPP16ChargingSchedulePeriod
  | [] => []
  | p :: rest =>
    if keepsClippedPeriod schedStart compositeInterval p rest then
      (if p.startPeriod ≠ 0 then { p with startPeriod := 0 } else p) :: rest
    else
      p :: zeroFirstKept schedStart compositeInterval rest

/-- `composeChargingSchedule` together with the final state of its
`chargingSchedule` argument. -/
def composeChargingScheduleFull (chargingSchedule : OCPP16ChargingSchedule)
    (compositeInterval : Interval) :
    Option OCPP16ChargingSchedule × OCPP16ChargingSchedule :=
  let chargingScheduleInterval : Interval :=
    { start := chargingSchedule.startSchedule
      «end» := addSeconds chargingSchedule.startSchedule chargingSchedule.duration }
  if areIntervalsOverlapping chargingScheduleInterval compositeInterval then
    let sorted := sortPeriods chargingSchedule.chargingSchedulePeriod
    if isBefore chargingScheduleInterval.start compositeInterval.start then
      (some { chargingSchedule with
          startSchedule := compositeInterval.start
          duration :=
            differenceInSeconds chargingScheduleInterval.«end» compositeInterval.start
          chargingSchedulePeriod :=
            zeroFirst
              (clipStartSurvivors chargingScheduleInterval.start compositeInterval sorted) },
        { chargingSchedule with
          chargingSchedulePeriod :=
            zeroFirstKept chargingScheduleInterval.start compositeInterval sorted })
    else if isAfter chargingScheduleInterval.«end» compositeInterval.«end» then
      (some { chargingSchedule with
          duration :=
            differenceInSeconds compositeInterval.«end» chargingScheduleInterval.start
          chargingSchedulePeriod :=
            sorted.filter fun p =>
              isWithinInterval (addSeconds chargingScheduleInterval.start p.startPeriod)
                compositeInterval },
        { chargingSchedule with chargingSchedulePeriod := sorted })
    else
      (some { chargingSchedule with chargingSchedulePeriod := sorted },
        { chargingSchedule with chargingSchedulePeriod := sorted })
  else
    (none, chargingSchedule)

/-- `composeChargingSchedules` together with the final states of its two
schedule arguments. The additional in-place zeroing of the first surviving
projected-lower period (lines 1200-1203) also writes through shared period
objects into the lower argument's array; that extra write is not tracked
here — the post-states below only record effects that do occur, which is
what the impurity claim needs. -/
def composeChargingSchedulesFull
    (chargingScheduleHigher chargingScheduleLower : Option OCPP16ChargingSchedule)
    (compositeInterval : Interval) :
    Option (Option OCPP16ChargingSchedule) ×
      Option OCPP16ChargingSchedule × Option OCPP16ChargingSchedule :=
  match chargingScheduleHigher, chargingScheduleLower with
  | none, none => (some none, none, none)
  | some higher, none =>
    let r := composeChargingScheduleFull higher compositeInterval
    (some r.1, some r.2, none)
  | none, some lower =>
    let r := composeChargingScheduleFull lower compositeInterval
    (some r.1, none, some r.2)
  | some higher, some lower =>
    let rh := composeChargingScheduleFull higher compositeInterval
    let rl := composeChargingScheduleFull lower compositeInterval
    (composeChargingSchedules (some higher) (some lower) compositeInterval,
      some rh.2, some rl.2)

/-- The schedule interval `[startSchedule, startSchedule + duration]` the
source builds for each schedule. -/
def scheduleInterval (s : OCPP16ChargingSchedule) : Interval :=
  { start := s.startSchedule, «end» := addSeconds s.startSchedule s.duration }

/-! ### Concrete instances (scenario S5 of the spec, and variants) -/

def exampleHigher : OCPP16ChargingSchedule :=
  ⟨0, 300, .A, [⟨0, 10, none⟩, ⟨150, 6, none⟩]⟩

def exampleLower : OCPP16ChargingSchedule :=
  ⟨200000, 400, .A, [⟨0, 32, none⟩, ⟨100, 20, none⟩, ⟨250, 16, none⟩]⟩

def exampleInterval : Interval := ⟨0, 600000⟩

/-- What the code actually returns on scenario S5. -/
def exampleComposite : OCPP16ChargingSchedule :=
  ⟨0, 600, .A, [⟨0, 10, none⟩, ⟨0, 6, none⟩, ⟨200, 16, none⟩]⟩

/-- `exampleHigher` with its periods listed out of order. -/
def unsortedSchedule : OCPP16ChargingSchedule :=
  ⟨0, 300, .A, [⟨150, 6, none⟩, ⟨0, 10, none⟩]⟩

/-- `exampleLower` with its periods listed out of order. -/
def unsortedLower : OCPP16ChargingSchedule :=
  ⟨200000, 400, .A, [⟨250, 16, none⟩, ⟨0, 32, none⟩, ⟨100, 20, none⟩]⟩

/-- A schedule starting before the composite interval, so the clip-start
branch of `composeChargingSchedule` applies. -/
def clippedSchedule : OCPP16ChargingSchedule :=
  ⟨-100000, 300, .A, [⟨0, 32, none⟩, ⟨50, 20, none⟩, ⟨150, 16, none⟩]⟩

/-! ### Sortedness of composition results -/

theorem sorted_sortPeriods (ps : List OCPP16ChargingSchedulePeriod) :
    List.Sorted periodLE (sortPeriods ps) :=
  List.sorted_insertionSort periodLE ps

theorem mem_sortPeriods {p : OCPP16ChargingSchedulePeriod}
    {ps : List OCPP16ChargingSchedulePeriod} (h : p ∈ sortPeriods ps) : p ∈ ps :=
  (List.perm_insertionSort periodLE ps).subset h

theorem clipStartSurvivors_sublist (s : Int) (I : Interval) :
    ∀ ps, List.Sublist (clipStartSurvivors s I ps) ps
  | [] => List.Sublist.refl _
  | p :: rest => by
    simp only [clipStartSurvivors]
    split
    · simpa using (clipStartSurvivors_sublist s I rest).cons₂ p
    · simpa using (clipStartSurvivors_sublist s I rest).cons p

theorem sorted_zeroFirst {l : List OCPP16ChargingSchedulePeriod}
    (hs : List.Sorted periodLE l) (hn : ∀ p ∈ l, 0 ≤ p.startPeriod) :
    List.Sorted periodLE (zeroFirst l) := by
  cases l with
  | nil => exact hs
  | cons p rest =>
    rw [List.sorted_cons] at hs
    simp only [zeroFirst]
    refine List.sorted_cons.mpr ⟨fun q hq => ?_, hs.2⟩
    have hq0 : 0 ≤ q.startPeriod := hn q (List.mem_cons_of_mem _ hq)
    by_cases h0 : p.startPeriod = 0
    · simp only [h0, ne_eq, not_true_eq_false, if_false]
      show p.startPeriod ≤ q.startPeriod
      rw [h0]; exact hq0
    · simp only [ne_eq, h0, not_false_eq_true, if_true]
      exact hq0

theorem sorted_composeChargingSchedule
    {cs : OCPP16ChargingSchedule} {I : Interval} {out : OCPP16ChargingSchedule}
    (h : composeChargingSchedule cs I = some out)
    (hn : ∀ p ∈ cs.chargingSchedulePeriod, 0 ≤ p.startPeriod) :
    List.Sorted periodLE out.chargingSchedulePeriod := by
  unfold composeChargingSchedule at h
  simp only [] at h
  split at h
  · split at h
    · cases h
      refine sorted_zeroFirst ?_ fun q hq => ?_
      · exact List.Pairwise.sublist (clipStartSurvivors_sublist _ _ _)
          (sorted_sortPeriods _)
      · exact hn q (mem_sortPeriods ((clipStartSurvivors_sublist _ _ _).subset hq))
    · split at h
      · cases h
        exact List.Pairwise.filter _ (sorted_sortPeriods _)
      · cases h
        exact sorted_sortPeriods _
  · cases h

theorem sorted_combineComposedSchedules (a b : OCPP16ChargingSchedule) :
    List.Sorted periodLE (combineComposedSchedules a b).chargingSchedulePeriod := by
  unfold combineComposedSchedules
  simp only []
  split
  · exact sorted_sortPeriods _
  · exact sorted_sortPeriods _

/-- C2 (amended): whenever `composeChargingSchedules` returns a defined
schedule and the input schedules' period offsets are non-negative (as the
OCPP data model requires), the returned `chargingSchedulePeriod` sequence is
sorted non-decreasingly by `startPeriod`. Distinctness of the `startPeriod`s
does not hold (see the counterexample). -/
theorem composeChargingSchedules_sorted
    (h l : Option OCPP16ChargingSchedule) (I : Interval)
    (out : OCPP16ChargingSchedule)
    (hres : composeChargingSchedules h l I = some (some out))
    (hnh : ∀ s, h = some s → ∀ p ∈ s.chargingSchedulePeriod, 0 ≤ p.startPeriod)
    (hnl : ∀ s, l = some s → ∀ p ∈ s.chargingSchedulePeriod, 0 ≤ p.startPeriod) :
    List.Sorted periodLE out.chargingSchedulePeriod := by
  match h, l with
  | none, none => simp [composeChargingSchedules] at hres
  | some hs, none =>
    simp only [composeChargingSchedules, Option.some.injEq] at hres
    exact sorted_composeChargingSchedule hres (hnh hs rfl)
  | none, some ls =>
    simp only [composeChargingSchedules, Option.some.injEq] at hres
    exact sorted_composeChargingSchedule hres (hnl ls rfl)
  | some hs, some ls =>
    simp only [composeChargingSchedules] at hres
    split at hres
    · simp only [Option.some.injEq] at hres
      rw [← hres]
      exact sorted_combineComposedSchedules _ _
    · cases hres

/-- Scenario S4 inputs and the result the code returns on them. -/
def s4Higher : OCPP16ChargingSchedule := ⟨0, 300, .A, [⟨0, 16, none⟩]⟩

def s4Lower : OCPP16ChargingSchedule := ⟨400000, 200, .A, [⟨0, 32, none⟩]⟩

def s4Composite : OCPP16ChargingSchedule :=
  ⟨0, 600, .A, [⟨0, 16, none⟩, ⟨400, 32, none⟩]⟩

/-- C2 witness: scenario S4 — the returned periods are sorted. -/
theorem composeChargingSchedules_sorted_witness :
    composeChargingSchedules (some s4Higher) (some s4Lower) ⟨0, 600000⟩ =
      some (some s4Composite) ∧
    List.Sorted periodLE s4Composite.chargingSchedulePeriod :=
  ⟨by decide, composeChargingSchedules_sorted (some s4Higher) (some s4Lower)
    ⟨0, 600000⟩ s4Composite (by decide)
    (fun s hs => by cases hs; decide) (fun s hs => by cases hs; decide)⟩

/-- C2 counterexample: on scenario S5 the returned sequence contains two
periods with the same `startPeriod` (both 0), refuting the distinctness part
of the claim. -/
theorem composeChargingSchedules_duplicate_startPeriod :
    composeChargingSchedules (some exampleHigher) (some exampleLower)
        exampleInterval = some (some exampleComposite) ∧
    ¬ List.Pairwise (fun a b : OCPP16ChargingSchedulePeriod =>
        a.startPeriod ≠ b.startPeriod) exampleComposite.chargingSchedulePeriod :=
  ⟨by decide, by decide⟩

/-! ### C1: overlapping composition with the higher-priority schedule first -/

/-- C1 (amended): when both schedules project onto the composite interval,
the projections overlap and the higher one starts first, the result retains
every projected higher period with its `startPeriod` overwritten to 0 (not
with its original offset), and from the projected lower schedule the periods
surviving the stated filter, the first survivor's `startPeriod` zeroed when
non-zero, each then offset by `(lower.start − higher.start)`. -/
theorem composeChargingSchedules_overlap_higherFirst
    (h l : OCPP16ChargingSchedule) (I : Interval)
    (ph pl : OCPP16ChargingSchedule)
    (hh : composeChargingSchedule h I = some ph)
    (hl : composeChargingSchedule l I = some pl)
    (hov : areIntervalsOverlapping (scheduleInterval ph) (scheduleInterval pl) = true)
    (hfirst : ph.startSchedule < pl.startSchedule) :
    composeChargingSchedules (some h) (some l) I =
      some (some { ph with
        startSchedule := ph.startSchedule
        duration :=
          differenceInSeconds (addSeconds pl.startSchedule pl.duration) ph.startSchedule
        chargingSchedulePeriod :=
          sortPeriods
            ((ph.chargingSchedulePeriod.map fun sp => { sp with startPeriod := 0 }) ++
              ((zeroFirst
                  (overlapSurvivors true (scheduleInterval ph) (scheduleInterval pl)
                    pl.chargingSchedulePeriod)).map fun sp =>
                { sp with
                  startPeriod := sp.startPeriod +
                    differenceInSeconds pl.startSchedule ph.startSchedule })) }) := by
  simp only [composeChargingSchedules, hh, hl]
  have hfirstb : isBefore ph.startSchedule pl.startSchedule = true := by
    simpa [isBefore] using hfirst
  simp only [combineComposedSchedules, scheduleInterval] at hov ⊢
  rw [hfirstb]
  simp only [hov, Bool.not_true, Bool.false_eq_true, if_false, if_true]

/-- C1 witness: the general theorem applied at the claim's own input
(scenario S5 with `t0 = 0`); both schedules project onto the composite
interval unchanged there, and the described sequence evaluates to
`[(0,10A), (0,6A), (200,16A)]`. -/
theorem composeChargingSchedules_overlap_higherFirst_witness :
    composeChargingSchedules (some exampleHigher) (some exampleLower)
        exampleInterval = some (some exampleComposite) :=
  (composeChargingSchedules_overlap_higherFirst exampleHigher exampleLower
    exampleInterval exampleHigher exampleLower (by decide) (by decide)
    (by decide) (by decide)).trans (by decide)

/-- C1 counterexample: on the claim's own input the returned period sequence
is not `[(0,10A), (150,6A), (450,16A)]`. -/
theorem composeChargingSchedules_S5_ne_claimed :
    composeChargingSchedules (some exampleHigher) (some exampleLower)
        exampleInterval = some (some exampleComposite) ∧
    exampleComposite.chargingSchedulePeriod ≠
      [⟨0, 10, none⟩, ⟨150, 6, none⟩, ⟨450, 16, none⟩] :=
  ⟨by decide, by decide⟩

/-! ### C10: impurity of the composition functions -/

theorem composeChargingScheduleFull_fst (cs : OCPP16ChargingSchedule)
    (I : Interval) :
    (composeChargingScheduleFull cs I).1 = composeChargingSchedule cs I := by
  unfold composeChargingScheduleFull composeChargingSchedule
  simp only []
  split
  · split
    · rfl
    · split
      · rfl
      · rfl
  · rfl

/-- C10: the composition functions mutate their schedule arguments — the
period array is reordered in place by the sort, and in the clip-start branch
the first surviving period object of the input has its `startPeriod`
overwritten to 0; `composeChargingSchedules` passes its arguments through
`composeChargingSchedule` and hence mutates them too. -/
theorem compose_impure :
    ((composeChargingScheduleFull unsortedSchedule exampleInterval).2.chargingSchedulePeriod =
        [⟨0, 10, none⟩, ⟨150, 6, none⟩] ∧
      unsortedSchedule.chargingSchedulePeriod ≠ [⟨0, 10, none⟩, ⟨150, 6, none⟩]) ∧
    ((composeChargingScheduleFull clippedSchedule exampleInterval).2.chargingSchedulePeriod =
        [⟨0, 32, none⟩, ⟨0, 20, none⟩, ⟨150, 16, none⟩] ∧
      clippedSchedule.chargingSchedulePeriod ≠
        [⟨0, 32, none⟩, ⟨0, 20, none⟩, ⟨150, 16, none⟩]) ∧
    (composeChargingSchedulesFull (some exampleHigher) (some unsortedLower)
          exampleInterval).2.2 ≠ some unsortedLower := by
  refine ⟨⟨by decide, by decide⟩, ⟨by decide, by decide⟩, by decide⟩

/-! ### Charging profiles: install and clear -/

inductive OCPP16ChargingProfilePurposeType where
  | ChargePointMaxProfile
  | TxDefaultProfile
  | TxProfile
deriving DecidableEq, Repr

/-- `OCPP16ChargingProfile` restricted to the fields the install/clear code
reads (`chargingProfileKind` and `recurrencyKind` are never consulted by it). -/
structure OCPP16ChargingProfile where
  chargingProfileId : Int
  stackLevel : Int
  chargingProfilePurpose : OCPP16ChargingProfilePurposeType
  chargingSchedule : OCPP16ChargingSchedule
deriving DecidableEq, Repr

/-- The replacement test of `setChargingProfile` (lines 976-980). -/
def matchesProfile (chargingProfile cp : OCPP16ChargingProfile) : Bool :=
  decide (chargingProfile.chargingProfileId = cp.chargingProfileId) ||
    (decide (chargingProfile.stackLevel = cp.stackLevel) &&
      decide (chargingProfile.chargingProfilePurpose = cp.chargingProfilePurpose))

/-- `OCPP16ServiceUtils.setChargingProfile` (lines 952-987) acting on the
connector's profile list: the `forEach` overwrites every matching index with
`cp` and sets `cpReplaced`; when nothing matched, `cp` is appended. The
deferred initialization of an undefined (or, untypeable here, non-array)
attribute is modelled by `none ↦ []`. -/
def setChargingProfile (cps : Option (List OCPP16ChargingProfile))
    (cp : OCPP16ChargingProfile) : List OCPP16ChargingProfile :=
  let chargingProfiles := cps.getD []
  if chargingProfiles.any (fun p => matchesProfile p cp) then
    chargingProfiles.map fun p => if matchesProfile p cp then cp else p
  else
    chargingProfiles ++ [cp]

/-- `ClearChargingProfileRequest`: every field optional. -/
structure ClearChargingProfileRequest where
  id : Option Int := none
  chargingProfilePurpose : Option OCPP16ChargingProfilePurposeType := none
  stackLevel : Option Int := none
deriving DecidableEq, Repr

/-- The per-profile clearing test (lines 998-1013). JS truthiness:
`!chargingProfilePurpose` holds when the purpose is absent, `!stackLevel`
when the stack level is absent or 0; a strict `===` comparison against an
absent payload field is false. -/
def matchesClearCriteria (commandPayload : ClearChargingProfileRequest)
    (chargingProfile : OCPP16ChargingProfile) : Bool :=
  decide (commandPayload.id = some chargingProfile.chargingProfileId) ||
    (commandPayload.chargingProfilePurpose.isNone &&
      decide (commandPayload.stackLevel = some chargingProfile.stackLevel)) ||
    ((decide (commandPayload.stackLevel = none) ||
        decide (commandPayload.stackLevel = some 0)) &&
      decide (commandPayload.chargingProfilePurpose =
        some chargingProfile.chargingProfilePurpose)) ||
    (decide (commandPayload.stackLevel = some chargingProfile.stackLevel) &&
      decide (commandPayload.chargingProfilePurpose =
        some chargingProfile.chargingProfilePurpose))

/-- The `forEach` + `splice(index, 1)` loop of `clearChargingProfiles`
(lines 997-1022), modelled index-faithfully: after the element at the
current index is removed, the next iteration's index points past the
removed element's immediate successor, which is therefore never examined
(JS `forEach` reads the live array and does not revisit). -/
def clearLoop (f : OCPP16ChargingProfile → Bool) :
    List OCPP16ChargingProfile → Bool × List OCPP16ChargingProfile
  | [] => (false, [])
  | p :: rest =>
    if f p then
      match rest with
      | [] => (true, [])
      | q :: rest2 => (true, q :: (clearLoop f rest2).2)
    else
      let r := clearLoop f rest
      (r.1, p :: r.2)

/-- `OCPP16ServiceUtils.clearChargingProfiles` (lines 989-1025): returns the
`clearedCP` flag together with the final state of the profiles array
(`isNotEmptyArray` guards the loop). -/
def clearChargingProfiles (commandPayload : ClearChargingProfileRequest)
    (chargingProfiles : Option (List OCPP16ChargingProfile)) :
    Bool × Option (List OCPP16ChargingProfile) :=
  match chargingProfiles with
  | none => (false, none)
  | some ps =>
    if ps.isEmpty then (false, some ps)
    else
      let r := clearLoop (matchesClearCriteria commandPayload) ps
      (r.1, some r.2)

def dummySchedule : OCPP16ChargingSchedule := ⟨0, 0, .A, []⟩

def profile1 : OCPP16ChargingProfile := ⟨1, 2, .TxProfile, dummySchedule⟩

def profile2 : OCPP16ChargingProfile := ⟨2, 2, .TxProfile, dummySchedule⟩

/-- C4: `setChargingProfile` replaces in place every profile matching `cp`
by id or by (stackLevel, purpose), appends `cp` when nothing matches, and in
particular installing `{id=1, stackLevel=2, purpose=TxProfile}` then
`{id=2, stackLevel=2, purpose=TxProfile}` leaves exactly `[{id=2, ...}]`. -/
theorem setChargingProfile_spec (cps : List OCPP16ChargingProfile)
    (cp : OCPP16ChargingProfile) :
    ((∃ p ∈ cps, matchesProfile p cp = true) →
      setChargingProfile (some cps) cp =
        cps.map fun p => if matchesProfile p cp then cp else p) ∧
    ((∀ p ∈ cps, matchesProfile p cp = false) →
      setChargingProfile (some cps) cp = cps ++ [cp]) ∧
    setChargingProfile (some (setChargingProfile (some []) profile1)) profile2 =
      [profile2] := by
  refine ⟨fun hex => ?_, fun hall => ?_, by decide⟩
  · have hany : cps.any (fun p => matchesProfile p cp) = true := by
      rcases hex with ⟨p, hp, hm⟩
      exact List.any_eq_true.mpr ⟨p, hp, hm⟩
    simp [setChargingProfile, hany]
  · have hany : cps.any (fun p => matchesProfile p cp) = false := by
      rw [List.any_eq_false]
      intro p hp
      simp [hall p hp]
    simp [setChargingProfile, hany]

/-- C4 witness: replacement and append at concrete inputs. -/
theorem setChargingProfile_spec_witness :
    setChargingProfile (some [profile1]) profile2 = [profile2] ∧
    setChargingProfile (some []) profile1 = [profile1] := by
  constructor
  · have h := (setChargingProfile_spec [profile1] profile2).1
      ⟨profile1, by decide, by decide⟩
    rw [h]; decide
  · have h := (setChargingProfile_spec [] profile1).2.1 (by decide)
    rw [h]; decide

def clearPayload : ClearChargingProfileRequest := ⟨some 1, none, none⟩

def clearProfileA : OCPP16ChargingProfile := ⟨1, 1, .TxProfile, dummySchedule⟩

def clearProfileB : OCPP16ChargingProfile := ⟨1, 2, .TxProfile, dummySchedule⟩

/-- C3, evaluated at the failing input: both adjacent profiles match the
payload (`id = 1`), yet the call removes only the first — the second is
skipped by the in-place `splice` and survives, although the flag is `true`. -/
theorem clearChargingProfiles_skips_adjacent_match :
    clearChargingProfiles clearPayload (some [clearProfileA, clearProfileB]) =
      (true, some [clearProfileB]) ∧
    matchesClearCriteria clearPayload clearProfileB = true :=
  ⟨by decide, by decide⟩

/-! ### Error behaviour of `buildMeterValue` (C5) -/

inductive ErrorType where
  | InternalError
  | GenericError
deriving DecidableEq, Repr

inductive RequestCommand where
  | MeterValues
  | StatusNotification
deriving DecidableEq, Repr

/-- `OCPPError` restricted to the fields the claim is about; the message
text is not modelled. -/
structure OCPPError where
  errorType : ErrorType
  command : RequestCommand
deriving DecidableEq, Repr

/-- `OCPP16ServiceUtils.checkMeasurandPowerDivider` (lines 1358-1375):
`isUndefined(powerDivider)` and `powerDivider <= 0` each raise an
`InternalError` bound to the `MeterValues` command. -/
def checkMeasurandPowerDivider (powerDivider : Option Int) : Except OCPPError Unit :=
  match powerDivider with
  | none => Except.error ⟨.InternalError, .MeterValues⟩
  | some d =>
    if d ≤ 0 then Except.error ⟨.InternalError, .MeterValues⟩
    else Except.ok ()

/-- The `switch (chargingStation.stationInfo?.currentOutType)` of the Power
and Current sections of `buildMeterValue` (lines 295-441 and 560-702): the
`AC` and `DC` cases compute values and do not throw; the `default:` case
throws an `InternalError` bound to `MeterValues`. The configured value is an
arbitrary string from the template file. -/
def currentOutTypeSwitch (currentOutType : Option String) : Except OCPPError Unit :=
  match currentOutType with
  | some "AC" => Except.ok ()
  | some "DC" => Except.ok ()
  | _ => Except.error ⟨.InternalError, .MeterValues⟩

/-- The station state relevant to the error behaviour of `buildMeterValue`:
whether the Power / Current / Energy sampled-value templates resolve, the
power divider, and the configured current-out type. -/
structure MeterValueStation where
  powerDivider : Option Int
  currentOutType : Option String
  hasPowerTemplate : Bool
  hasCurrentTemplate : Bool
  hasEnergyTemplate : Bool
deriving DecidableEq, Repr

/-- The checked (throwing) effects of `buildMeterValue` (lines 85-841) in
source order: the SoC and Voltage sections never throw; when the Power
template resolves, `checkMeasurandPowerDivider` runs and then the
current-out-type switch (lines 269-441); likewise for Current (lines
541-703); when the Energy template resolves only
`checkMeasurandPowerDivider` runs (lines 769-773). The numeric synthesis
never throws. -/
def buildMeterValueChecks (station : MeterValueStation) : Except OCPPError Unit := do
  if station.hasPowerTemplate then
    checkMeasurandPowerDivider station.powerDivider
    currentOutTypeSwitch station.currentOutType
  if station.hasCurrentTemplate then
    checkMeasurandPowerDivider station.powerDivider
    currentOutTypeSwitch station.currentOutType
  if station.hasEnergyTemplate then
    checkMeasurandPowerDivider station.powerDivider

theorem checkMeasurandPowerDivider_error {pd : Option Int}
    (h : pd = none ∨ ∃ d, pd = some d ∧ d ≤ 0) :
    checkMeasurandPowerDivider pd = Except.error ⟨.InternalError, .MeterValues⟩ := by
  rcases h with h | ⟨d, hd, hle⟩
  · rw [h]; rfl
  · rw [hd]
    simp [checkMeasurandPowerDivider, hle]

theorem checkMeasurandPowerDivider_ok {pd : Option Int} {d : Int}
    (hd : pd = some d) (hpos : 0 < d) :
    checkMeasurandPowerDivider pd = Except.ok () := by
  rw [hd]
  simp [checkMeasurandPowerDivider, not_le.mpr hpos]

theorem currentOutTypeSwitch_error {co : Option String}
    (hA : co ≠ some "AC") (hD : co ≠ some "DC") :
    currentOutTypeSwitch co = Except.error ⟨.InternalError, .MeterValues⟩ := by
  unfold currentOutTypeSwitch
  split
  · exact absurd rfl hA
  · exact absurd rfl hD
  · rfl

/-- C5: with any of the Power, Current or Energy templates resolved, an
undefined or non-positive `powerDivider` makes `buildMeterValue` raise
`InternalError` on command `MeterValues`; with the Power or Current template
resolved, a `currentOutType` other than AC or DC does the same; and with a
positive divider and a known `currentOutType` no error branch is reachable. -/
theorem buildMeterValue_error_conditions (station : MeterValueStation) :
    (((station.hasPowerTemplate = true ∨ station.hasCurrentTemplate = true ∨
          station.hasEnergyTemplate = true) ∧
        (station.powerDivider = none ∨
          ∃ d, station.powerDivider = some d ∧ d ≤ 0)) →
      buildMeterValueChecks station = Except.error ⟨.InternalError, .MeterValues⟩) ∧
    (((station.hasPowerTemplate = true ∨ station.hasCurrentTemplate = true) ∧
        station.currentOutType ≠ some "AC" ∧ station.currentOutType ≠ some "DC") →
      buildMeterValueChecks station = Except.error ⟨.InternalError, .MeterValues⟩) ∧
    (((∃ d, station.powerDivider = some d ∧ 0 < d) ∧
        (station.currentOutType = some "AC" ∨ station.currentOutType = some "DC")) →
      buildMeterValueChecks station = Except.ok ()) := by
  obtain ⟨pd, co, hp, hc, he⟩ := station
  refine ⟨fun ⟨htemp, hdiv⟩ => ?_, fun ⟨htemp, hA, hD⟩ => ?_, fun ⟨⟨d, hd, hpos⟩, hco⟩ => ?_⟩
  · have hchk := checkMeasurandPowerDivider_error hdiv
    cases hp <;> cases hc <;> cases he <;>
      simp_all [buildMeterValueChecks, Bind.bind, Except.bind, pure, Except.pure]
  · have hsw := currentOutTypeSwitch_error hA hD
    rcases pd with _ | d
    · have hchk := checkMeasurandPowerDivider_error (Or.inl rfl)
      cases hp <;> cases hc <;> cases he <;>
        simp_all [buildMeterValueChecks, Bind.bind, Except.bind, pure, Except.pure]
    · by_cases hle : d ≤ 0
      · have hchk := checkMeasurandPowerDivider_error (Or.inr ⟨d, rfl, hle⟩)
        cases hp <;> cases hc <;> cases he <;>
          simp_all [buildMeterValueChecks, Bind.bind, Except.bind, pure, Except.pure]
      · have hchk := checkMeasurandPowerDivider_ok rfl (lt_of_not_le hle)
        cases hp <;> cases hc <;> cases he <;>
          simp_all [buildMeterValueChecks, Bind.bind, Except.bind, pure, Except.pure]
  · have hchk := checkMeasurandPowerDivider_ok hd hpos
    have hsw : currentOutTypeSwitch co = Except.ok () := by
      rcases hco with h | h <;> dsimp only at h <;> rw [h] <;> rfl
    cases hp <;> cases hc <;> cases he <;>
      simp_all [buildMeterValueChecks, Bind.bind, Except.bind, pure, Except.pure]

/-- C5 witness: a station with an Energy template and an undefined
`powerDivider` raises `InternalError` on `MeterValues`; one with divider 1
and AC output raises nothing. -/
theorem buildMeterValue_error_conditions_witness :
    buildMeterValueChecks ⟨none, some "AC", false, false, true⟩ =
      Except.error ⟨.InternalError, .MeterValues⟩ ∧
    buildMeterValueChecks ⟨some 1, some "AC", true, true, true⟩ =
      Except.ok () := by
  constructor
  · exact (buildMeterValue_error_conditions ⟨none, some "AC", false, false, true⟩).1
      ⟨Or.inr (Or.inr rfl), Or.inl rfl⟩
  · exact (buildMeterValue_error_conditions ⟨some 1, some "AC", true, true, true⟩).2.2
      ⟨⟨1, rfl, by decide⟩, Or.inl rfl⟩

/-! ### Numeric synthesis helpers (C6, C7)

Numeric values are modelled over `ℚ`. The random draws of the source are
routed through an explicit RNG input `u`. -/

/-- Modelled from the spec: `roundTo(value, scale)` rounds to `scale`
decimal places (`utils/Utils.ts` is not under `src/`); JS `Math.round`
rounds halves toward positive infinity, exactly as Mathlib's `round`. -/
def roundTo (x : ℚ) (scale : ℕ) : ℚ :=
  ((round (x * 10 ^ scale) : ℤ) : ℚ) / 10 ^ scale

theorem roundTo_mono {x y : ℚ} (h : x ≤ y) (scale : ℕ) :
    roundTo x scale ≤ roundTo y scale := by
  unfold roundTo
  have hpow : (0 : ℚ) < 10 ^ scale := by positivity
  have hr : round (x * 10 ^ scale) ≤ round (y * 10 ^ scale) := by
    rw [round_eq, round_eq]
    exact Int.floor_le_floor
      (by nlinarith [mul_le_mul_of_nonneg_right h (le_of_lt hpow)])
  have hc : ((round (x * 10 ^ scale) : ℤ) : ℚ) ≤ ((round (y * 10 ^ scale) : ℤ) : ℚ) := by
    exact_mod_cast hr
  gcongr

theorem roundTo_zero (scale : ℕ) : roundTo 0 scale = 0 := by
  simp [roundTo]

/-- Modelled from the spec: `getRandomFloatRounded(max, min)` draws a
uniform random value in `[min, max]` and rounds it to 2 decimal places
(`utils/Utils.ts` is not under `src/`); the RNG draw `u` is an input. -/
def getRandomFloatRounded (u maxV minV : ℚ) : ℚ :=
  roundTo (u * (maxV - minV) + minV) 2

/-- The energy-register update of `buildMeterValue` (lines 801-815): when
both the lifetime and the transaction registers are defined and
non-negative, the per-interval increment is added to both; otherwise both
are reset to 0. -/
def updateEnergyRegisters (energyValueRounded : ℚ) :
    Option ℚ → Option ℚ → ℚ × ℚ
  | some lifetime, some txn =>
    if 0 ≤ lifetime ∧ 0 ≤ txn then
      (lifetime + energyValueRounded, txn + energyValueRounded)
    else (0, 0)
  | _, _ => (0, 0)

/-- Modelled from the spec:
`station.getEnergyActiveImportRegisterByTransactionId(transactionId)`
returns the connector's transaction energy register
(`ChargingStation.ts` is not under `src/`). -/
def getEnergyActiveImportRegisterByTransactionId (txnRegister : ℚ) : ℚ :=
  txnRegister

/-- The energy sampled value emitted at lines 816-825: the register queried
by transaction id, divided by the unit divider, rounded to 2 decimals. -/
def emittedEnergyRegisterValue (txnRegister unitDivider : ℚ) : ℚ :=
  roundTo (getEnergyActiveImportRegisterByTransactionId txnRegister / unitDivider) 2

/-- C6: with both registers defined and non-negative, a `buildMeterValue`
call adds the same per-interval increment to both; the increment drawn from
`[minE, maxE]` is non-negative whenever the template bounds are (the
template minimum defaults to 0), so both registers and the emitted rounded
aggregate never decrease across successive calls. -/
theorem energyRegister_monotone (u maxE minE lifetime txn unitDivider : ℚ)
    (hu0 : 0 ≤ u) (hu1 : u ≤ 1) (hmin : 0 ≤ minE) (hminmax : minE ≤ maxE)
    (hl : 0 ≤ lifetime) (ht : 0 ≤ txn) (hdiv : 0 < unitDivider) :
    0 ≤ getRandomFloatRounded u maxE minE ∧
    updateEnergyRegisters (getRandomFloatRounded u maxE minE)
        (some lifetime) (some txn) =
      (lifetime + getRandomFloatRounded u maxE minE,
        txn + getRandomFloatRounded u maxE minE) ∧
    lifetime ≤ lifetime + getRandomFloatRounded u maxE minE ∧
    txn ≤ txn + getRandomFloatRounded u maxE minE ∧
    emittedEnergyRegisterValue txn unitDivider ≤
      emittedEnergyRegisterValue (txn + getRandomFloatRounded u maxE minE)
        unitDivider := by
  have he : 0 ≤ getRandomFloatRounded u maxE minE := by
    have hx : (0 : ℚ) ≤ u * (maxE - minE) + minE := by nlinarith
    have h0 := roundTo_mono hx 2
    rwa [roundTo_zero] at h0
  refine ⟨he, ?_, by linarith, by linarith, ?_⟩
  · simp [updateEnergyRegisters, hl, ht]
  · unfold emittedEnergyRegisterValue getEnergyActiveImportRegisterByTransactionId
    apply roundTo_mono
    gcongr
    linarith

/-- C6 witness: one concrete call. -/
theorem energyRegister_monotone_witness :
    0 ≤ getRandomFloatRounded (1/2) 10 0 ∧
    updateEnergyRegisters (getRandomFloatRounded (1/2) 10 0)
        (some 3) (some 2) =
      (3 + getRandomFloatRounded (1/2) 10 0,
        2 + getRandomFloatRounded (1/2) 10 0) ∧
    (3 : ℚ) ≤ 3 + getRandomFloatRounded (1/2) 10 0 ∧
    (2 : ℚ) ≤ 2 + getRandomFloatRounded (1/2) 10 0 ∧
    emittedEnergyRegisterValue 2 1 ≤
      emittedEnergyRegisterValue (2 + getRandomFloatRounded (1/2) 10 0) 1 :=
  energyRegister_monotone (1/2) 10 0 3 2 1 (by norm_num) (by norm_num)
    (by norm_num) (by norm_num) (by norm_num) (by norm_num) (by norm_num)

/-! ### SoC synthesis (C7) -/

/-- Modelled from the spec: `getRandomInteger(max, min)` draws a uniform
integer in `[min, max]` (`utils/Utils.ts` is not under `src/`); with RNG
input `u ∈ [0, 1)` the draw is `⌊u · (max − min + 1)⌋ + min`. -/
def getRandomInteger (u : ℚ) (maxV minV : Int) : Int :=
  ⌊u * ((maxV : ℚ) - (minV : ℚ) + 1)⌋ + minV

/-- Modelled from the spec: `getRandomFloatFluctuatedRounded(value, percent)`
applies a `±percent` fluctuation to the static value (drawing uniformly in
`[value·(1 − percent/100), value·(1 + percent/100)]` with RNG input `u`) and
rounds to 2 decimals; a zero percent returns the rounded static value. -/
def getRandomFloatFluctuatedRounded (u staticValue fluctuationPercent : ℚ) : ℚ :=
  if fluctuationPercent = 0 then roundTo staticValue 2
  else
    getRandomFloatRounded u (staticValue * (1 + fluctuationPercent / 100))
      (staticValue * (1 - fluctuationPercent / 100))

def DEFAULT_FLUCTUATION_PERCENT : ℚ := 5

/-- The SoC sampled-value template fields read by `buildMeterValue`
(lines 97-130); the literal `value` is a string parsed by `parseInt`,
modelled as the parsed integer (`none` for an absent or empty string). -/
structure SocTemplate where
  value : Option Int := none
  fluctuationPercent : Option ℚ := none
  minimumValue : Option Int := none
deriving DecidableEq, Repr

/-- The SoC value synthesized by `buildMeterValue` (lines 103-111): a
non-empty literal value is fluctuated by the template's (or the default)
fluctuation percent; otherwise a uniform integer in
`[minimumValue ?? 0, 100]` is drawn. The value is emitted unchanged —
out-of-range values are only logged (lines 116-129). -/
def socMeasurandValue (u : ℚ) (t : SocTemplate) : ℚ :=
  let socMaximumValue : Int := 100
  let socMinimumValue : Int := t.minimumValue.getD 0
  match t.value with
  | some v =>
    getRandomFloatFluctuatedRounded u (v : ℚ)
      (t.fluctuationPercent.getD DEFAULT_FLUCTUATION_PERCENT)
  | none => ((getRandomInteger u socMaximumValue socMinimumValue : Int) : ℚ)

/-- C7 counterexample: a template with literal value 200 and zero
fluctuation makes `buildMeterValue` emit an SoC of 200 > 100. -/
theorem socMeasurandValue_exceeds_100 :
    socMeasurandValue 0 ⟨some 200, some 0, none⟩ = 200 ∧
    ¬(socMeasurandValue 0 ⟨some 200, some 0, none⟩ ≤ 100) := by
  have h : socMeasurandValue 0 ⟨some 200, some 0, none⟩ = 200 := by
    simp [socMeasurandValue, getRandomFloatFluctuatedRounded, roundTo]
    norm_num
  exact ⟨h, by rw [h]; norm_num⟩

/-- C7 (amended): the bound `0 ≤ SoC ≤ 100` holds for every template without
a literal value whose `minimumValue` (default 0) lies in `[0, 100]`, for
every RNG draw; a literal template value is fluctuated and emitted without
clamping and can lie outside `[0, 100]` (see the counterexample). -/
theorem socMeasurandValue_bounds (u : ℚ) (t : SocTemplate)
    (hv : t.value = none) (hm0 : 0 ≤ t.minimumValue.getD 0)
    (hm1 : t.minimumValue.getD 0 ≤ 100) (hu0 : 0 ≤ u) (hu1 : u < 1) :
    0 ≤ socMeasurandValue u t ∧ socMeasurandValue u t ≤ 100 := by
  have hval : socMeasurandValue u t =
      ((⌊u * ((100 : ℚ) - (t.minimumValue.getD 0 : ℚ) + 1)⌋ +
        t.minimumValue.getD 0 : Int) : ℚ) := by
    simp [socMeasurandValue, hv, getRandomInteger]
  set m : Int := t.minimumValue.getD 0 with hm
  have hs : (0 : ℚ) < (100 : ℚ) - (m : ℚ) + 1 := by
    have : (m : ℚ) ≤ 100 := by exact_mod_cast hm1
    linarith
  have hfloor0 : 0 ≤ ⌊u * ((100 : ℚ) - (m : ℚ) + 1)⌋ :=
    Int.floor_nonneg.mpr (mul_nonneg hu0 (le_of_lt hs))
  have hfloorlt : ⌊u * ((100 : ℚ) - (m : ℚ) + 1)⌋ < 101 - m := by
    rw [Int.floor_lt]
    push_cast
    nlinarith
  constructor
  · rw [hval]
    have : (0 : Int) ≤ ⌊u * ((100 : ℚ) - (m : ℚ) + 1)⌋ + m := by omega
    exact_mod_cast this
  · rw [hval]
    have : ⌊u * ((100 : ℚ) - (m : ℚ) + 1)⌋ + m ≤ 100 := by omega
    exact_mod_cast this

/-- C7 witness: the default template with RNG draw 0. -/
theorem socMeasurandValue_bounds_witness :
    0 ≤ socMeasurandValue 0 ⟨none, none, none⟩ ∧
    socMeasurandValue 0 ⟨none, none, none⟩ ≤ 100 :=
  socMeasurandValue_bounds 0 ⟨none, none, none⟩ rfl (by norm_num) (by norm_num)
    (by norm_num) (by norm_num)

/-! ### Reservations (C8) -/

inductive OCPP16ChargePointStatus where
  | Available
  | Preparing
  | Charging
  | SuspendedEVSE
  | SuspendedEV
  | Finishing
  | Reserved
  | Unavailable
  | Faulted
deriving DecidableEq, Repr

structure Reservation where
  reservationId : Int
  connectorId : Nat
  idTag : String
  expiryDate : Int
deriving DecidableEq, Repr

/-- The station state read by `hasReservation`: the per-connector status,
the reservation list, and the current wall-clock instant as an explicit
input. -/
structure ReservationStation where
  connectorStatus : Nat → Option OCPP16ChargePointStatus
  reservations : List Reservation
  now : Int

/-- Modelled from the spec: `hasReservationExpired` — a reservation with
`expiryDate ≤ now` is considered expired (the charging-station helper is
not under `src/`). -/
def hasReservationExpired (now : Int) (r : Reservation) : Bool :=
  r.expiryDate ≤ now

/-- Modelled from the spec: `getReservationBy('connectorId', id)` returns
the reservation on that connector (`ChargingStation.ts` is not under
`src/`); first match in insertion order. -/
def getReservationByConnectorId (st : ReservationStation) (connectorId : Nat) :
    Option Reservation :=
  st.reservations.find? fun r => r.connectorId == connectorId

/-- `OCPP16ServiceUtils.hasReservation` (lines 1219-1245). -/
def hasReservation (st : ReservationStation) (connectorId : Nat)
    (idTag : String) : Bool :=
  let connectorReservation := getReservationByConnectorId st connectorId
  let chargingStationReservation := getReservationByConnectorId st 0
  (decide (st.connectorStatus connectorId = some .Reserved) &&
      (match connectorReservation with
       | some r => !hasReservationExpired st.now r && decide (r.idTag = idTag)
       | none => false)) ||
    (decide (st.connectorStatus 0 = some .Reserved) &&
      (match chargingStationReservation with
       | some r => !hasReservationExpired st.now r && decide (r.idTag = idTag)
       | none => false))

/-- C8: `hasReservation` is true iff the connector (or the station-level
connector 0) is `Reserved` and carries a non-expired reservation with a
matching idTag; in particular it is false whenever every reservation with a
matching idTag has `expiryDate ≤ now`. -/
theorem hasReservation_spec (st : ReservationStation) (connectorId : Nat)
    (idTag : String) :
    (hasReservation st connectorId idTag = true ↔
      ((st.connectorStatus connectorId = some .Reserved ∧
          ∃ r, getReservationByConnectorId st connectorId = some r ∧
            st.now < r.expiryDate ∧ r.idTag = idTag) ∨
        (st.connectorStatus 0 = some .Reserved ∧
          ∃ r, getReservationByConnectorId st 0 = some r ∧
            st.now < r.expiryDate ∧ r.idTag = idTag))) ∧
    ((∀ r ∈ st.reservations, r.idTag = idTag → r.expiryDate ≤ st.now) →
      hasReservation st connectorId idTag = false) := by
  have hiff : hasReservation st connectorId idTag = true ↔
      ((st.connectorStatus connectorId = some .Reserved ∧
          ∃ r, getReservationByConnectorId st connectorId = some r ∧
            st.now < r.expiryDate ∧ r.idTag = idTag) ∨
        (st.connectorStatus 0 = some .Reserved ∧
          ∃ r, getReservationByConnectorId st 0 = some r ∧
            st.now < r.expiryDate ∧ r.idTag = idTag)) := by
    unfold hasReservation
    cases hcr : getReservationByConnectorId st connectorId <;>
      cases hsr : getReservationByConnectorId st 0 <;>
        simp [hasReservationExpired, not_le]
  refine ⟨hiff, fun hall => ?_⟩
  cases h : hasReservation st connectorId idTag
  · rfl
  · exfalso
    rcases hiff.mp h with ⟨_, r, hfind, hlt, htag⟩ | ⟨_, r, hfind, hlt, htag⟩ <;>
      exact absurd (hall r (List.mem_of_find?_eq_some hfind) htag) (not_le.mpr hlt)

/-- A station whose only reservation (idTag "A", connector 1) is expired. -/
def expiredStation : ReservationStation :=
  ⟨fun _ => some .Reserved, [⟨1, 1, "A", 0⟩], 5⟩

/-- C8 witness: the expired reservation never matches. -/
theorem hasReservation_spec_witness :
    hasReservation expiredStation 1 "A" = false :=
  (hasReservation_spec expiredStation 1 "A").2 (by decide)

/-! ### Change availability (C9) -/

inductive OCPP16AvailabilityType where
  | Operative
  | Inoperative
deriving DecidableEq, Repr

/-- The status of an `OCPP16ChangeAvailabilityResponse`
(`OCPP_AVAILABILITY_RESPONSE_ACCEPTED` / `OCPP_AVAILABILITY_RESPONSE_SCHEDULED`). -/
inductive AvailabilityStatus where
  | Accepted
  | Scheduled
deriving DecidableEq, Repr

/-- The connector fields read and written by `changeAvailability`. -/
structure AvailConnector where
  transactionStarted : Bool
  availability : OCPP16AvailabilityType
  status : OCPP16ChargePointStatus
deriving DecidableEq, Repr

/-- The station's connectors as a partial map (`getConnectorStatus`). -/
abbrev ConnectorMap := Nat → Option AvailConnector

/-- Modelled from the spec: `sendAndSetConnectorStatus` performs the status
transition — it sets the connector's status and pushes a
`StatusNotification` (`OCPPServiceUtils.ts` is not under `src/`); only the
status write is state-relevant here. -/
def sendAndSetConnectorStatus (s : ConnectorMap) (connectorId : Nat)
    (chargePointStatus : OCPP16ChargePointStatus) : ConnectorMap :=
  fun c =>
    if c = connectorId then
      (s connectorId).map fun r => { r with status := chargePointStatus }
    else s c

/-- One iteration body of the `changeAvailability` loop (lines 930-944):
the `availability` field is set unconditionally; the status transition is
performed only when the response is `Accepted`, i.e. when no transaction is
active. -/
def stepConnector (chargePointStatus : OCPP16ChargePointStatus)
    (availabilityType : OCPP16AvailabilityType) (s : ConnectorMap)
    (connectorId : Nat) (connectorStatus : AvailConnector) : ConnectorMap :=
  let s1 : ConnectorMap := fun c =>
    if c = connectorId then some { connectorStatus with availability := availabilityType }
    else s c
  if connectorStatus.transactionStarted then s1
  else sendAndSetConnectorStatus s1 connectorId chargePointStatus

/-- The `for (const connectorId of connectorIds)` loop of
`changeAvailability` (lines 929-945), collecting the per-connector
responses; `none` models the `TypeError` the source raises on an unknown
connector id (it writes through `getConnectorStatus(connectorId)!`). -/
def changeAvailabilityLoop (chargePointStatus : OCPP16ChargePointStatus)
    (availabilityType : OCPP16AvailabilityType) :
    List Nat → ConnectorMap → Option (List AvailabilityStatus × ConnectorMap)
  | [], s => some ([], s)
  | connectorId :: rest, s =>
    match s connectorId with
    | none => none
    | some connectorStatus =>
      match changeAvailabilityLoop chargePointStatus availabilityType rest
          (stepConnector chargePointStatus availabilityType s connectorId
            connectorStatus) with
      | none => none
      | some (responses, sf) =>
        some ((if connectorStatus.transactionStarted then
            AvailabilityStatus.Scheduled else .Accepted) :: responses, sf)

/-- `OCPP16ServiceUtils.changeAvailability` (lines 922-950): return
`Scheduled` iff some connector responded `Scheduled`, else `Accepted`. -/
def changeAvailability (s : ConnectorMap) (connectorIds : List Nat)
    (chargePointStatus : OCPP16ChargePointStatus)
    (availabilityType : OCPP16AvailabilityType) :
    Option (AvailabilityStatus × ConnectorMap) :=
  match changeAvailabilityLoop chargePointStatus availabilityType connectorIds s with
  | none => none
  | some (responses, sf) =>
    some ((if responses.contains .Scheduled then .Scheduled else .Accepted), sf)

/-- The net per-connector effect of one loop iteration: availability set
unconditionally, status transitioned only without an active transaction. -/
def applyAvailability (chargePointStatus : OCPP16ChargePointStatus)
    (availabilityType : OCPP16AvailabilityType) (r : AvailConnector) :
    AvailConnector :=
  { r with
    availability := availabilityType
    status := if r.transactionStarted then r.status else chargePointStatus }

theorem applyAvailability_idem (cps : OCPP16ChargePointStatus)
    (a : OCPP16AvailabilityType) (r : AvailConnector) :
    applyAvailability cps a (applyAvailability cps a r) =
      applyAvailability cps a r := by
  cases h : r.transactionStarted <;> simp [applyAvailability, h]

theorem stepConnector_eq (cps : OCPP16ChargePointStatus)
    (a : OCPP16AvailabilityType) (s : ConnectorMap) (cid : Nat)
    (rec0 : AvailConnector) (hrec : s cid = some rec0) :
    stepConnector cps a s cid rec0 =
      fun c => if c = cid then some (applyAvailability cps a rec0) else s c := by
  funext c
  by_cases hc : c = cid <;>
    cases htx : rec0.transactionStarted <;>
      simp [stepConnector, sendAndSetConnectorStatus, applyAvailability, hc, htx]

theorem changeAvailabilityLoop_spec (cps : OCPP16ChargePointStatus)
    (a : OCPP16AvailabilityType) (ids : List Nat) :
    ∀ s : ConnectorMap, (∀ cid ∈ ids, s cid ≠ none) →
      changeAvailabilityLoop cps a ids s =
        some (ids.map fun cid =>
            if ((s cid).map AvailConnector.transactionStarted).getD false then
              AvailabilityStatus.Scheduled else .Accepted,
          fun c => if c ∈ ids then (s c).map (applyAvailability cps a) else s c) := by
  induction ids with
  | nil =>
    intro s _
    have hfun : (fun c =>
        if c ∈ ([] : List Nat) then (s c).map (applyAvailability cps a) else s c) = s := by
      funext c
      simp
    rw [hfun]
    rfl
  | cons cid rest ih =>
    intro s hall
    obtain ⟨rec0, hrec⟩ : ∃ r, s cid = some r := by
      cases h : s cid
      · exact absurd h (hall cid (List.mem_cons_self _ _))
      · exact ⟨_, rfl⟩
    have hsu := stepConnector_eq cps a s cid rec0 hrec
    have hallsu : ∀ c ∈ rest, stepConnector cps a s cid rec0 c ≠ none := by
      intro c hc
      rw [hsu]
      by_cases h : c = cid
      · simp [h]
      · simp only [h, if_false]
        exact hall c (List.mem_cons_of_mem _ hc)
    simp only [changeAvailabilityLoop, hrec, ih _ hallsu]
    have hmap : (rest.map fun c =>
        if ((stepConnector cps a s cid rec0 c).map
            AvailConnector.transactionStarted).getD false then
          AvailabilityStatus.Scheduled else .Accepted) =
        rest.map fun c =>
          if ((s c).map AvailConnector.transactionStarted).getD false then
            AvailabilityStatus.Scheduled else .Accepted := by
      refine List.map_congr_left fun c _ => ?_
      rw [hsu]
      by_cases h : c = cid
      · subst h
        simp [hrec, applyAvailability]
      · simp [h]
    have hstate : (fun c =>
        if c ∈ rest then
          (stepConnector cps a s cid rec0 c).map (applyAvailability cps a)
        else stepConnector cps a s cid rec0 c) =
        fun c => if c ∈ cid :: rest then (s c).map (applyAvailability cps a)
          else s c := by
      funext c
      rw [hsu]
      by_cases hc : c = cid
      · subst hc
        by_cases hm : c ∈ rest <;>
          simp [hm, hrec, applyAvailability_idem, List.mem_cons]
      · by_cases hm : c ∈ rest <;>
          simp [hm, hc, List.mem_cons]
    rw [hmap, hstate]
    have hresp : (if rec0.transactionStarted then AvailabilityStatus.Scheduled
        else .Accepted) =
        if ((s cid).map AvailConnector.transactionStarted).getD false then
          AvailabilityStatus.Scheduled else .Accepted := by
      rw [hrec]
      rfl
    rw [hresp]
    rfl

theorem map_ite_contains_scheduled (ids : List Nat) (g : Nat → Bool) :
    (ids.map fun cid =>
        if g cid then AvailabilityStatus.Scheduled else .Accepted).contains
      AvailabilityStatus.Scheduled = ids.any g := by
  induction ids with
  | nil => rfl
  | cons x xs ih =>
    rw [Bool.eq_iff_iff]
    simp only [List.any_eq_true]
    cases hgx : g x <;> simp [hgx, List.any_eq_true]

/-- C9: with every listed connector known, `changeAvailability` sets each
listed connector's `availability` unconditionally, transitions the status
of exactly the connectors without an active transaction, leaves unlisted
connectors unchanged, and returns `Scheduled` iff some listed connector has
an active transaction (i.e. recorded `Scheduled`), else `Accepted`. -/
theorem changeAvailability_spec (s : ConnectorMap) (ids : List Nat)
    (cps : OCPP16ChargePointStatus) (a : OCPP16AvailabilityType)
    (hall : ∀ cid ∈ ids, s cid ≠ none) :
    changeAvailability s ids cps a =
      some
        ((if ids.any fun cid =>
              ((s cid).map AvailConnector.transactionStarted).getD false then
            AvailabilityStatus.Scheduled else .Accepted),
          fun c => if c ∈ ids then (s c).map (applyAvailability cps a) else s c) := by
  unfold changeAvailability
  rw [changeAvailabilityLoop_spec cps a ids s hall]
  have hc := map_ite_contains_scheduled ids
    (fun cid => ((s cid).map AvailConnector.transactionStarted).getD false)
  simp only [hc]

/-- Connector 1 has an active transaction, connector 2 does not. -/
def availMap : ConnectorMap := fun c =>
  if c = 1 then some ⟨true, .Operative, .Charging⟩
  else if c = 2 then some ⟨false, .Operative, .Available⟩
  else none

/-- C9 witness: the aggregate response on `[1, 2]` is `Scheduled`, and the
final state transitions only connector 2 while both availabilities are set. -/
theorem changeAvailability_spec_witness :
    (changeAvailability availMap [1, 2] .Unavailable .Inoperative).map
        Prod.fst = some AvailabilityStatus.Scheduled ∧
    (changeAvailability availMap [1, 2] .Unavailable .Inoperative).map
        (fun r => (r.2 1, r.2 2, r.2 3)) =
      some (some ⟨true, .Inoperative, .Charging⟩,
        some ⟨false, .Inoperative, .Unavailable⟩, none) := by
  rw [changeAvailability_spec availMap [1, 2] .Unavailable .Inoperative
    (by decide)]
  exact ⟨by decide, by decide⟩

end OCPP16
